import Mathlib

/-!
# Verification of the DeDNA molecular-structure generator and renderer

Shallow embedding of the synthetic DNA double-helix generator
(`getBaseAtPosition`, `generateHighFidelityStructure`, `generateDNA`) and the
3D-to-2D projection / depth-sort renderer (`renderList`) from
`src/components/GenomeBrowser.tsx` (the `MolecularViewer` part of the file),
together with the zoom handlers of `MolecularViewer`.

JavaScript numbers are modelled by real numbers; JS arrays by lists; the
optional variant by `Option Variant`; a JS array access that may be
out of range returns a junk default standing for `undefined`.
-/

namespace DeDNA

/-- The `Variant` fields the generator reads.  The repository's `types.ts` is
not part of the sources; the generator accesses only `variant.ref` and
`variant.alt` (both strings), which is what we model. -/
structure Variant where
  ref : String
  alt : String

/-- `Atom.element` union type from the source. -/
inductive Element
  | C | N | O | P | H | Mutated | Sugar
  deriving DecidableEq

/-- `Bond.type` union type from the source
(`"single" | "double" | "hydrogen" | "backbone"`). -/
inductive BondType
  | single | double | hydrogen | backbone
  deriving DecidableEq

/-- The `Atom` interface (extends `Point3D`).  Optional JS fields become
`Option`s; the optional boolean `isMutation` is read only for truthiness, so it
is a `Bool` (absent = `false`). -/
structure Atom where
  x : ℝ
  y : ℝ
  z : ℝ
  element : Element
  id : String
  size : ℝ
  color : String
  opacity : Option ℝ := none
  isMutation : Bool := false
  charge : Option ℝ := none
  tempFactor : Option ℝ := none

/-- The `Bond` interface.  `end` is a Lean keyword, so the field is `endA`. -/
structure Bond where
  start : Atom
  endA : Atom
  type : BondType
  id : String

/-- The `MolecularData` interface. -/
structure MolecularData where
  atoms : List Atom
  bonds : List Bond

/-! ## Configuration constants (`BASE_COLORS`, `ATOM_SIZES`) -/

def colorBackbone : String := "#a1a1aa"
def colorSugar : String := "#71717a"
def colorMutation : String := "#d946ef"
def colorOxygen : String := "#ff2222"
def colorNitrogen : String := "#3b82f6"
def colorCarbon : String := "#cccccc"
def colorHydrogen : String := "#ffffff"

/-- `ATOM_SIZES` lookup (`(ATOM_SIZES as any)[el]`); `Mutated` has no entry in
the source table (JS `undefined`), and is never constructed, so it gets 0. -/
noncomputable def atomSize : Element → ℝ
  | .P => 3.2
  | .Sugar => 2.5
  | .C => 2.0
  | .N => 2.1
  | .O => 1.9
  | .H => 0.8
  | .Mutated => 0

/-- Per-element color chosen in `addAtom`
(`el === "C" ? "Carbon" : el === "N" ? "Nitrogen" : el === "O" ? "Oxygen" : "Hydrogen"`). -/
def elementColor : Element → String
  | .C => colorCarbon
  | .N => colorNitrogen
  | .O => colorOxygen
  | _ => colorHydrogen

/-! ## `getBaseAtPosition` -/

/-- The four-element base array `["A", "T", "C", "G"]`. -/
def basesArr : List String := ["A", "T", "C", "G"]

/-- The bucket index computed by `getBaseAtPosition`:
`Math.floor((Math.abs(x) - Math.floor(Math.abs(x))) * 4)` for
`x = Math.sin(pos * 0.123) * 10000`. -/
noncomputable def hashBucket (pos : ℝ) : ℤ :=
  let x := Real.sin (pos * 0.123) * 10000
  ⌊(|x| - (⌊|x|⌋ : ℝ)) * 4⌋

/-- `getBaseAtPosition`: deterministic pseudo-random base from a genomic
coordinate.  An out-of-range array access would give JS `undefined`, modelled
by the junk string `"undefined"`; `hashBucket_mem` below shows it never
happens. -/
noncomputable def getBaseAtPosition (pos : ℝ) : String :=
  basesArr.getD (hashBucket pos).toNat "undefined"

/-- The hash bucket always lies in `[0, 3]`. -/
theorem hashBucket_nonneg_lt_four (pos : ℝ) :
    0 ≤ hashBucket pos ∧ hashBucket pos < 4 := by
  unfold hashBucket
  set x := Real.sin (pos * 0.123) * 10000 with hx
  have hfr : |x| - (⌊|x|⌋ : ℝ) = Int.fract |x| := by
    rw [Int.fract]
  constructor
  · apply Int.floor_nonneg.mpr
    rw [hfr]
    nlinarith [Int.fract_nonneg |x|]
  · apply Int.floor_lt.mpr
    rw [hfr]
    push_cast
    nlinarith [Int.fract_lt_one |x|, Int.fract_nonneg |x|]

/-- `getBaseAtPosition` always returns one of the four base symbols. -/
theorem hashBucket_mem (pos : ℝ) :
    getBaseAtPosition pos = "A" ∨ getBaseAtPosition pos = "T" ∨
    getBaseAtPosition pos = "C" ∨ getBaseAtPosition pos = "G" := by
  obtain ⟨h0, h4⟩ := hashBucket_nonneg_lt_four pos
  unfold getBaseAtPosition
  have : hashBucket pos = 0 ∨ hashBucket pos = 1 ∨ hashBucket pos = 2 ∨
      hashBucket pos = 3 := by omega
  rcases this with h | h | h | h <;> rw [h] <;> simp [basesArr]

/-! ## Geometry helpers -/

/-- `rotateZ`: rotate a point around the helix axis by an angle in degrees. -/
noncomputable def rotateZ (x y angleDeg : ℝ) : ℝ × ℝ :=
  let rad := angleDeg * Real.pi / 180
  (x * Real.cos rad - y * Real.sin rad, x * Real.sin rad + y * Real.cos rad)

/-! ## `generateHighFidelityStructure` -/

/-- Return type of `generateHighFidelityStructure`. -/
structure BaseStruct where
  atoms : List Atom
  bonds : List Bond
  connector : Atom
  hydrogenBondPoints : List Atom

/-- The `addAtom` closure inside `generateHighFidelityStructure`: scale the
local planar offset by 2.5, rotate into the helix frame, and build the atom. -/
noncomputable def baseAtom (centerX centerY angleDeg : ℝ) (idPref : String)
    (isMutation : Bool) (x z : ℝ) (el : Element) (name : String)
    (charge : ℝ) : Atom :=
  let rot := rotateZ (centerX + x * 2.5) (z * 2.5) angleDeg
  { x := rot.1, y := centerY, z := rot.2,
    element := el,
    id := idPref ++ "-" ++ name,
    size := atomSize el,
    color := if isMutation then colorMutation else elementColor el,
    isMutation := isMutation,
    charge := some charge }

/-- A ring bond pushed by `pairs.forEach((p, i) => ...)`. -/
noncomputable def ringBond (idPref : String) (k : ℕ) (a b : Atom) : Bond :=
  ⟨a, b, .single, idPref ++ "-b-" ++ Nat.repr k⟩

/-- `generateHighFidelityStructure`: hand-specified planar heavy-atom layout of
one nucleobase, rotated/translated into the helix frame.  An unrecognized base
symbol falls through to the Thymine branch. -/
noncomputable def generateHighFidelityStructure (base : String)
    (centerX centerY angleDeg : ℝ) (idPref : String) (isMutation : Bool) :
    BaseStruct :=
  let addAtom := baseAtom centerX centerY angleDeg idPref isMutation
  if base = "A" then
    let N9 := addAtom (-1.5) 0 .N "N9" (-0.2)
    let C8 := addAtom (-1.0) 1.2 .C "C8" 0.1
    let N7 := addAtom 0.2 1.2 .N "N7" (-0.5)
    let C5 := addAtom 0.5 0 .C "C5" 0.1
    let C6 := addAtom 1.8 0 .C "C6" 0.4
    let N6 := addAtom 2.5 1.2 .N "N6" (-0.8)
    let N1 := addAtom 2.5 (-1.2) .N "N1" (-0.6)
    let C2 := addAtom 1.5 (-2.2) .C "C2" 0.2
    let N3 := addAtom 0.2 (-2.2) .N "N3" (-0.6)
    let C4 := addAtom (-0.5) (-1.0) .C "C4" 0.1
    { atoms := [N9, C8, N7, C5, C6, N6, N1, C2, N3, C4],
      bonds := [ringBond idPref 0 N9 C8, ringBond idPref 1 C8 N7,
        ringBond idPref 2 N7 C5, ringBond idPref 3 C5 C6,
        ringBond idPref 4 C6 N1, ringBond idPref 5 N1 C2,
        ringBond idPref 6 C2 N3, ringBond idPref 7 N3 C4,
        ringBond idPref 8 C4 C5, ringBond idPref 9 C4 N9,
        ringBond idPref 10 C6 N6],
      connector := N9,
      hydrogenBondPoints := [N1, N6] }
  else if base = "G" then
    let N9 := addAtom (-1.5) 0 .N "N9" (-0.2)
    let C8 := addAtom (-1.0) 1.2 .C "C8" 0.1
    let N7 := addAtom 0.2 1.2 .N "N7" (-0.5)
    let C5 := addAtom 0.5 0 .C "C5" 0.1
    let C6 := addAtom 1.8 0 .C "C6" 0.5
    let O6 := addAtom 2.5 1.2 .O "O6" (-0.6)
    let N1 := addAtom 2.5 (-1.2) .N "N1" (-0.6)
    let C2 := addAtom 1.5 (-2.2) .C "C2" 0.4
    let N2 := addAtom 1.8 (-3.2) .N "N2" (-0.8)
    let N3 := addAtom 0.2 (-2.2) .N "N3" (-0.6)
    let C4 := addAtom (-0.5) (-1.0) .C "C4" 0.1
    { atoms := [N9, C8, N7, C5, C6, O6, N1, C2, N2, N3, C4],
      bonds := [ringBond idPref 0 N9 C8, ringBond idPref 1 C8 N7,
        ringBond idPref 2 N7 C5, ringBond idPref 3 C5 C6,
        ringBond idPref 4 C6 O6, ringBond idPref 5 C6 N1,
        ringBond idPref 6 N1 C2, ringBond idPref 7 C2 N2,
        ringBond idPref 8 C2 N3, ringBond idPref 9 N3 C4,
        ringBond idPref 10 C4 C5, ringBond idPref 11 C4 N9],
      connector := N9,
      hydrogenBondPoints := [O6, N1, N2] }
  else if base = "C" then
    let N1 := addAtom (-1.5) 0 .N "N1" (-0.2)
    let C2 := addAtom (-0.5) 1.2 .C "C2" 0.5
    let O2 := addAtom (-0.8) 2.4 .O "O2" (-0.6)
    let N3 := addAtom 0.8 1.2 .N "N3" (-0.6)
    let C4 := addAtom 1.5 0 .C "C4" 0.4
    let N4 := addAtom 2.8 0 .N "N4" (-0.8)
    let C5 := addAtom 0.8 (-1.2) .C "C5" 0.1
    let C6 := addAtom (-0.5) (-1.2) .C "C6" 0.1
    { atoms := [N1, C2, O2, N3, C4, N4, C5, C6],
      bonds := [ringBond idPref 0 N1 C2, ringBond idPref 1 C2 O2,
        ringBond idPref 2 C2 N3, ringBond idPref 3 N3 C4,
        ringBond idPref 4 C4 N4, ringBond idPref 5 C4 C5,
        ringBond idPref 6 C5 C6, ringBond idPref 7 C6 N1],
      connector := N1,
      hydrogenBondPoints := [N4, N3, O2] }
  else
    let N1 := addAtom (-1.5) 0 .N "N1" (-0.2)
    let C2 := addAtom (-0.5) 1.2 .C "C2" 0.5
    let O2 := addAtom (-0.8) 2.4 .O "O2" (-0.6)
    let N3 := addAtom 0.8 1.2 .N "N3" (-0.6)
    let C4 := addAtom 1.5 0 .C "C4" 0.5
    let O4 := addAtom 2.5 0.5 .O "O4" (-0.6)
    let C5 := addAtom 0.8 (-1.2) .C "C5" 0.1
    let C7 := addAtom 1.5 (-2.4) .C "C7" 0.0
    let C6 := addAtom (-0.5) (-1.2) .C "C6" 0.1
    { atoms := [N1, C2, O2, N3, C4, O4, C5, C7, C6],
      bonds := [ringBond idPref 0 N1 C2, ringBond idPref 1 C2 O2,
        ringBond idPref 2 C2 N3, ringBond idPref 3 N3 C4,
        ringBond idPref 4 C4 O4, ringBond idPref 5 C4 C5,
        ringBond idPref 6 C5 C7, ringBond idPref 7 C5 C6,
        ringBond idPref 8 C6 N1],
      connector := N1,
      hydrogenBondPoints := [N3, O4] }

/-! ## `generateDNA` -/

noncomputable def rise : ℝ := 4.0
noncomputable def twist : ℝ := 34
noncomputable def radiusBackbone : ℝ := 12

/-- `startOffset = -Math.floor(length / 2)`. -/
def startOffset (len : ℕ) : ℤ := -((len / 2 : ℕ) : ℤ)

/-- The step offset `startOffset + i`. -/
def offsetOf (len i : ℕ) : ℤ := startOffset len + i

/-- `currentGenomicPos = centerPos + offset`. -/
noncomputable def genomicPos (centerPos : ℝ) (len i : ℕ) : ℝ :=
  centerPos + (offsetOf len i : ℝ)

/-- `const ref = variant?.ref || ""`. -/
def refOf : Option Variant → String
  | some v => v.ref
  | none => ""

/-- `const alt = variant?.alt || ""`. -/
def altOf : Option Variant → String
  | some v => v.alt
  | none => ""

/-- `const isIndel = ref.length !== alt.length`. -/
def isIndel (v : Option Variant) : Bool :=
  (refOf v).length != (altOf v).length

/-- `const isMutationSite = offset === 0 && !!variant`. -/
def isMutationSite (v : Option Variant) (len i : ℕ) : Bool :=
  (offsetOf len i == 0) && v.isSome

/-- Strand-1 base symbol of step `i`:
`getBaseAtPosition(currentGenomicPos)` overridden by the alternate allele at
the mutation site of a same-length substitution. -/
noncomputable def stepBase1 (centerPos : ℝ) (v : Option Variant) (len i : ℕ) :
    String :=
  if isMutationSite v len i && !(isIndel v) then altOf v
  else getBaseAtPosition (genomicPos centerPos len i)

/-- The strand-2 base computation
`base1 === "A" ? "T" : base1 === "T" ? "A" : base1 === "G" ? "C" : "G"`. -/
def complementChar (b : String) : String :=
  if b = "A" then "T" else if b = "T" then "A" else if b = "G" then "C" else "G"

/-- Strand-2 base symbol of step `i`. -/
noncomputable def stepBase2 (centerPos : ℝ) (v : Option Variant) (len i : ℕ) :
    String :=
  complementChar (stepBase1 centerPos v len i)

/-- `const y = offset * rise`. -/
noncomputable def yOf (len i : ℕ) : ℝ := (offsetOf len i : ℝ) * rise

/-- `const angle = i * twist` (strand 1). -/
noncomputable def strandAngle1 (i : ℕ) : ℝ := (i : ℝ) * twist

/-- `const angle2 = angle + 140` (strand 2 offset). -/
noncomputable def strandAngle2 (i : ℕ) : ℝ := strandAngle1 i + 140

/-- Strand-1 phosphate atom of step `i`. -/
noncomputable def phos1 (len i : ℕ) : Atom :=
  let bbPos := rotateZ radiusBackbone 0 (strandAngle1 i)
  { x := bbPos.1, y := yOf len i, z := bbPos.2,
    element := .P, id := "s1-p-" ++ Nat.repr i,
    size := atomSize .P, color := colorBackbone, charge := some (-1) }

/-- Strand-1 sugar atom of step `i`. -/
noncomputable def sugar1 (len i : ℕ) : Atom :=
  let sPos := rotateZ (radiusBackbone - 2) 1 (strandAngle1 i + 5)
  { x := sPos.1, y := yOf len i, z := sPos.2,
    element := .Sugar, id := "s1-s-" ++ Nat.repr i,
    size := atomSize .Sugar, color := colorSugar }

/-- Strand-2 phosphate atom of step `i`. -/
noncomputable def phos2 (len i : ℕ) : Atom :=
  let bbPos := rotateZ radiusBackbone 0 (strandAngle2 i)
  { x := bbPos.1, y := yOf len i, z := bbPos.2,
    element := .P, id := "s2-p-" ++ Nat.repr i,
    size := atomSize .P, color := colorBackbone, charge := some (-1) }

/-- Strand-2 sugar atom of step `i`. -/
noncomputable def sugar2 (len i : ℕ) : Atom :=
  let sPos := rotateZ (radiusBackbone - 2) (-1) (strandAngle2 i - 5)
  { x := sPos.1, y := yOf len i, z := sPos.2,
    element := .Sugar, id := "s2-s-" ++ Nat.repr i,
    size := atomSize .Sugar, color := colorSugar }

/-- Strand-1 base structure of step `i` (the `b1Struct` call). -/
noncomputable def b1StructOf (centerPos : ℝ) (v : Option Variant) (len i : ℕ) :
    BaseStruct :=
  generateHighFidelityStructure (stepBase1 centerPos v len i)
    (radiusBackbone - 3) (yOf len i) (strandAngle1 i)
    ("s1-b-" ++ Nat.repr i) (isMutationSite v len i)

/-- Strand-2 base structure of step `i` (the `b2Struct` call, never flagged as
mutation). -/
noncomputable def b2StructOf (centerPos : ℝ) (v : Option Variant) (len i : ℕ) :
    BaseStruct :=
  generateHighFidelityStructure (stepBase2 centerPos v len i)
    (radiusBackbone - 3) (yOf len i) (strandAngle2 i)
    ("s2-b-" ++ Nat.repr i) false

/-- The hydrogen-bond pairing loop of one step: every donor/acceptor atom of
strand 1's base against every one of strand 2's base, emitting a hydrogen bond
when the planar distance (ignoring `y`) is under the 5.0 threshold. -/
noncomputable def hydrogenBonds (i : ℕ) (b1 b2 : BaseStruct) : List Bond :=
  b1.hydrogenBondPoints.flatMap fun h1 =>
    b2.hydrogenBondPoints.filterMap fun h2 =>
      if Real.sqrt ((h1.x - h2.x) ^ 2 + (h1.z - h2.z) ^ 2) < 5.0 then
        some ⟨h1, h2, .hydrogen,
          "h-" ++ Nat.repr i ++ "-" ++ h1.id ++ "-" ++ h2.id⟩
      else none

/-- The backbone-link push
`const prevS = atoms.find(a => a.id === target); if (prevS) bonds.push({start: prevS, end: p, type: "backbone", id: bbId})`
as the (zero- or one-element) list of bonds it appends. -/
noncomputable def bbSeg (target bbId : String) (p : Atom) (atoms : List Atom) :
    List Bond :=
  match atoms.find? (fun a => a.id == target) with
  | some prevS => [⟨prevS, p, .backbone, bbId⟩]
  | none => []

/-- One iteration of the `for (let i = 0; i < length; i++)` loop of
`generateDNA`, pushing atoms and bonds in source order (each push is an
appended segment). -/
noncomputable def genStep (centerPos : ℝ) (v : Option Variant) (len : ℕ)
    (st : MolecularData) (i : ℕ) : MolecularData :=
  let p1 := phos1 len i
  let s1 := sugar1 len i
  let atoms1 := st.atoms ++ [p1, s1]
  let b1 := b1StructOf centerPos v len i
  let atoms2 := atoms1 ++ b1.atoms
  let p2 := phos2 len i
  let s2 := sugar2 len i
  let atoms3 := atoms2 ++ [p2, s2]
  let b2 := b2StructOf centerPos v len i
  let atoms4 := atoms3 ++ b2.atoms
  let bonds7 := st.bonds
    ++ [⟨p1, s1, .single, "s1-ps-" ++ Nat.repr i⟩]
    ++ (if 0 < i then
          bbSeg ("s1-s-" ++ Nat.repr (i - 1)) ("s1-bb-" ++ Nat.repr i) p1 atoms1
        else [])
    ++ b1.bonds
    ++ [⟨s1, b1.connector, .single, "s1-sb-" ++ Nat.repr i⟩]
    ++ [⟨p2, s2, .single, "s2-ps-" ++ Nat.repr i⟩]
    ++ (if 0 < i then
          bbSeg ("s2-s-" ++ Nat.repr (i - 1)) ("s2-bb-" ++ Nat.repr i) p2 atoms3
        else [])
    ++ b2.bonds
    ++ [⟨s2, b2.connector, .single, "s2-sb-" ++ Nat.repr i⟩]
    ++ (if isIndel v then [] else hydrogenBonds i b1 b2)
  ⟨atoms4, bonds7⟩

/-- The scene after the first `k` loop iterations. -/
noncomputable def genUpTo (centerPos : ℝ) (v : Option Variant) (len k : ℕ) :
    MolecularData :=
  (List.range k).foldl (genStep centerPos v len) ⟨[], []⟩

/-- `generateDNA(centerPos, variant, length)`: the full helix scene. -/
noncomputable def generateDNA (centerPos : ℝ) (v : Option Variant) (len : ℕ) :
    MolecularData :=
  genUpTo centerPos v len len

theorem genUpTo_succ (centerPos : ℝ) (v : Option Variant) (len k : ℕ) :
    genUpTo centerPos v len (k + 1) =
      genStep centerPos v len (genUpTo centerPos v len k) k := by
  unfold genUpTo
  rw [List.range_succ, List.foldl_append, List.foldl_cons, List.foldl_nil]

/-! ## The projection / depth-sort renderer (`renderList`) -/

/-- A projected atom (`{...a, px, py, scale, zIndex}`). -/
structure ProjAtom where
  atom : Atom
  px : ℝ
  py : ℝ
  scale : ℝ
  zIndex : ℝ

/-- A projected bond (`{...b, x1, y1, x2, y2, zIndex}`). -/
structure ProjBond where
  bond : Bond
  x1 : ℝ
  y1 : ℝ
  x2 : ℝ
  y2 : ℝ
  zIndex : ℝ

/-- One entry of the draw list (`{type: 'atom'|'bond', data, z}`). -/
inductive RenderItem
  | atom (a : ProjAtom)
  | bond (b : ProjBond)

/-- The `z` field attached to each draw-list entry. -/
noncomputable def RenderItem.z : RenderItem → ℝ
  | .atom a => a.zIndex
  | .bond b => b.zIndex

/-- `const fov = 400`. -/
noncomputable def fov : ℝ := 400

/-- The `project` closure: rotate around Y then X, compute the perspective
scale, and map to screen space.  The screen-center offset uses
`containerRef.current?.clientWidth || 400` (and `|| 500` for the height):
a zero (unset) viewport dimension falls back to 400×500 via JS falsiness.
Returns `(screenX, screenY, scale, depth)`. -/
noncomputable def project (rotX rotY zoom vw vh px py pz : ℝ) :
    ℝ × ℝ × ℝ × ℝ :=
  let ry := rotY * Real.pi / 180
  let x1 := px * Real.cos ry - pz * Real.sin ry
  let z1 := px * Real.sin ry + pz * Real.cos ry
  let rx := rotX * Real.pi / 180
  let y1 := py * Real.cos rx - z1 * Real.sin rx
  let z2 := py * Real.sin rx + z1 * Real.cos rx
  let scale := fov / (fov + z2) * zoom * 6
  (x1 * scale + (if vw = 0 then 400 else vw) / 2,
   y1 * scale + (if vh = 0 then 500 else vh) / 2,
   scale, z2)

/-- The `projAtoms` intermediate array of `renderList`. -/
noncomputable def projAtomsOf (md : MolecularData) (rotX rotY zoom vw vh : ℝ) :
    List ProjAtom :=
  md.atoms.map fun a =>
    let p := project rotX rotY zoom vw vh a.x a.y a.z
    { atom := a, px := p.1, py := p.2.1, scale := p.2.2.1, zIndex := p.2.2.2 }

/-- The `projBonds` intermediate array of `renderList`: each bond's projected
endpoints are looked up among the projected atoms by id, and bonds with a
missing endpoint are dropped (`.filter(Boolean)`). -/
noncomputable def projBondsOf (md : MolecularData) (rotX rotY zoom vw vh : ℝ) :
    List ProjBond :=
  md.bonds.filterMap fun b =>
    match (projAtomsOf md rotX rotY zoom vw vh).find?
            (fun a => a.atom.id == b.start.id),
          (projAtomsOf md rotX rotY zoom vw vh).find?
            (fun a => a.atom.id == b.endA.id) with
    | some s, some e =>
        some { bond := b, x1 := s.px, y1 := s.py, x2 := e.px, y2 := e.py,
               zIndex := (s.zIndex + e.zIndex) / 2 }
    | _, _ => none

/-- The comparison of `.sort((a, b) => b.z - a.z)`: `a` may precede `b`
exactly when `a` is at least as deep. -/
noncomputable def depthLe (a b : RenderItem) : Bool := decide (b.z ≤ a.z)

/-- `renderList`: project every atom, derive every bond's screen segment from
its two projected endpoint atoms, and sort everything by descending depth
(farthest first); an empty atom list short-circuits to `[]`. -/
noncomputable def renderList (md : MolecularData) (rotX rotY zoom vw vh : ℝ) :
    List RenderItem :=
  if md.atoms.length = 0 then []
  else
    ((projAtomsOf md rotX rotY zoom vw vh).map RenderItem.atom ++
     (projBondsOf md rotX rotY zoom vw vh).map RenderItem.bond).mergeSort
      depthLe

/-! ## Zoom handlers of `MolecularViewer` -/

/-- The wheel handler:
`setZoom(z => Math.max(0.5, Math.min(5, z - e.deltaY * 0.001)))`. -/
noncomputable def wheelZoomUpdate (z deltaY : ℝ) : ℝ :=
  max 0.5 (min 5 (z - deltaY * 0.001))

/-- The `+` button: `setZoom(z => z + 0.2)` (no clamping in the source). -/
noncomputable def zoomInUpdate (z : ℝ) : ℝ := z + 0.2

/-- The `-` button: `setZoom(z => z - 0.2)` (no clamping in the source). -/
noncomputable def zoomOutUpdate (z : ℝ) : ℝ := z - 0.2

/-! ## General lemmas about the geometry -/

/-- Rotating by a sum of angles is rotating by one then the other. -/
theorem rotateZ_add (x y a b : ℝ) :
    rotateZ x y (a + b) =
      rotateZ (rotateZ x y b).1 (rotateZ x y b).2 a := by
  unfold rotateZ
  have h : (a + b) * Real.pi / 180 = a * Real.pi / 180 + b * Real.pi / 180 := by
    ring
  simp only [h, Real.cos_add, Real.sin_add, Prod.mk.injEq]
  constructor <;> ring

/-! ## Claim theorems: C10, C9, C8, C7 -/

/-- C10: for every finite numeric position, the bucket index
`floor(frac * 4)` lies between 0 and 3, so the four-element base array lookup
always returns one of "A", "T", "C", "G" and never an undefined value. -/
theorem C10_base_lookup_total (pos : ℝ) :
    (0 ≤ hashBucket pos ∧ hashBucket pos < 4) ∧
    (getBaseAtPosition pos = "A" ∨ getBaseAtPosition pos = "T" ∨
     getBaseAtPosition pos = "C" ∨ getBaseAtPosition pos = "G") :=
  ⟨hashBucket_nonneg_lt_four pos, hashBucket_mem pos⟩

/-- C9 counterexample: the zoom-increment button does not clamp.  Starting from
zoom 5, which is inside the fixed range `[0.5, 5]`, one press of the `+`
control yields 5.2, outside the range — refuting the claim that every zoom
update clamps to the range. -/
theorem C9_cex_button_zoom_escapes :
    ((0.5 : ℝ) ≤ 5 ∧ (5 : ℝ) ≤ 5) ∧ zoomInUpdate 5 = 5.2 ∧
      ¬ zoomInUpdate 5 ≤ 5 := by
  norm_num [zoomInUpdate]

/-- C9 (amended): only the wheel/scroll zoom handler clamps to the fixed
range `[0.5, 5]` — its result is always inside the range, for every starting
zoom and every delta, so wheel-only sequences keep zoom in range.  The
zoom increment/decrement buttons add or subtract 0.2 without clamping. -/
theorem C9_wheel_zoom_clamped (z deltaY : ℝ) :
    0.5 ≤ wheelZoomUpdate z deltaY ∧ wheelZoomUpdate z deltaY ≤ 5 ∧
    zoomInUpdate z = z + 0.2 ∧ zoomOutUpdate z = z - 0.2 := by
  refine ⟨le_max_left _ _, max_le (by norm_num) (min_le_left _ _), rfl, rfl⟩

/-- C8 counterexample: the strand-2 helical angle at step 0 is 140°, not
strand 1's angle plus 180°. -/
theorem C8_cex_offset_not_180 :
    strandAngle2 0 = 140 ∧ strandAngle1 0 + 180 = 180 ∧
      ¬ strandAngle2 0 = strandAngle1 0 + 180 := by
  norm_num [strandAngle2, strandAngle1, twist]

/-- C8 (amended): strand 2's helical angle equals strand 1's helical angle
(step index times the fixed twist) plus a 140-degree offset; placing a point
at the strand-2 angle is the same as placing it at the strand-1 angle and then
rotating by 140°, and in particular the strand-2 phosphate's planar position is
the 140°-rotation of the strand-1 phosphate's planar position. -/
theorem C8_strand2_angle_is_140_offset (i : ℕ) (x y : ℝ) (len : ℕ) :
    strandAngle2 i = strandAngle1 i + 140 ∧
    rotateZ x y (strandAngle2 i) =
      rotateZ (rotateZ x y (strandAngle1 i)).1
        (rotateZ x y (strandAngle1 i)).2 140 ∧
    ((phos2 len i).x, (phos2 len i).z) =
      rotateZ (phos1 len i).x (phos1 len i).z 140 := by
  have key : ∀ u v : ℝ, rotateZ u v (strandAngle2 i) =
      rotateZ (rotateZ u v (strandAngle1 i)).1
        (rotateZ u v (strandAngle1 i)).2 140 := by
    intro u v
    have h : strandAngle2 i = 140 + strandAngle1 i := by
      unfold strandAngle2; ring
    rw [h, rotateZ_add]
  refine ⟨rfl, key x y, ?_⟩
  show ((phos2 len i).x, (phos2 len i).z) = _
  simp only [phos1, phos2]
  rw [key radiusBackbone 0]

/-- C7: the background base symbol a generation call derives at a helix step is
a pure function of the absolute genomic coordinate alone — two calls whose
step coordinates agree (for any center positions, variants, window lengths,
step indices, and regardless of call order or view state) derive the same
base symbol, provided the step is not a substituted mutation site. -/
theorem C7_base_pure_function_of_coordinate
    (c₁ : ℝ) (v₁ : Option Variant) (len₁ i₁ : ℕ)
    (c₂ : ℝ) (v₂ : Option Variant) (len₂ i₂ : ℕ)
    (h₁ : (isMutationSite v₁ len₁ i₁ && !isIndel v₁) = false)
    (h₂ : (isMutationSite v₂ len₂ i₂ && !isIndel v₂) = false)
    (hpos : genomicPos c₁ len₁ i₁ = genomicPos c₂ len₂ i₂) :
    stepBase1 c₁ v₁ len₁ i₁ = stepBase1 c₂ v₂ len₂ i₂ := by
  unfold stepBase1
  rw [h₁, h₂]
  simp only [Bool.false_eq_true, if_false, hpos]

/-- C7 witness: two concrete calls with different centers, variants, window
lengths and step indices but the same absolute coordinate derive the same
base. -/
theorem C7_witness :
    stepBase1 7 none 4 3 = stepBase1 6 (some ⟨"G", "A"⟩) 8 6 := by
  apply C7_base_pure_function_of_coordinate
  · decide
  · decide
  · norm_num [genomicPos, offsetOf, startOffset]

/-! ## Renderer lemmas and claims C5, C4 -/

/-- The renderer's output is pairwise sorted by non-increasing depth. -/
theorem renderList_pairwise (md : MolecularData) (rotX rotY zoom vw vh : ℝ) :
    (renderList md rotX rotY zoom vw vh).Pairwise fun a b => b.z ≤ a.z := by
  unfold renderList
  split
  · exact List.Pairwise.nil
  · have htrans : ∀ a b c : RenderItem,
        depthLe a b = true → depthLe b c = true → depthLe a c = true := by
      intro a b c hab hbc
      simp only [depthLe, decide_eq_true_eq] at *
      exact le_trans hbc hab
    have htotal : ∀ a b : RenderItem, (depthLe a b || depthLe b a) = true := by
      intro a b
      simp only [depthLe, Bool.or_eq_true, decide_eq_true_eq]
      exact le_total _ _
    exact (List.sorted_mergeSort htrans htotal _).imp fun h =>
      of_decide_eq_true h

/-- Length of the renderer's output when the scene has atoms. -/
theorem renderList_length (md : MolecularData) (rotX rotY zoom vw vh : ℝ)
    (h : md.atoms.length ≠ 0) :
    (renderList md rotX rotY zoom vw vh).length =
      md.atoms.length + (projBondsOf md rotX rotY zoom vw vh).length := by
  unfold renderList
  rw [if_neg h, List.length_mergeSort, List.length_append, List.length_map,
    List.length_map, projAtomsOf, List.length_map]

/-- A scene with at least one atom renders to a nonempty draw list, whatever
the viewport. -/
theorem renderList_ne_nil (md : MolecularData) (rotX rotY zoom vw vh : ℝ)
    (h : md.atoms ≠ []) : renderList md rotX rotY zoom vw vh ≠ [] := by
  have hlen : md.atoms.length ≠ 0 := by
    simpa [List.length_eq_zero] using h
  have := renderList_length md rotX rotY zoom vw vh hlen
  intro hnil
  rw [hnil] at this
  simp at this
  omega

/-- C5: the renderer's output is depth-sorted — whenever primitive `A` appears
before primitive `B` in the output list, `A`'s associated depth is at least
`B`'s (farthest drawn first). -/
theorem C5_depth_sorted (md : MolecularData) (rotX rotY zoom vw vh : ℝ)
    (i j : ℕ) (hij : i < j)
    (hj : j < (renderList md rotX rotY zoom vw vh).length) :
    ((renderList md rotX rotY zoom vw vh).get ⟨j, hj⟩).z ≤
      ((renderList md rotX rotY zoom vw vh).get ⟨i, hij.trans hj⟩).z := by
  have hp := renderList_pairwise md rotX rotY zoom vw vh
  exact List.pairwise_iff_get.mp hp ⟨i, hij.trans hj⟩ ⟨j, hj⟩ hij

/-- A concrete probe atom used to exercise the renderer. -/
noncomputable def probeAtom : Atom :=
  { x := 0, y := 0, z := 0, element := .C, id := "probe0", size := 1,
    color := "#cccccc" }

/-- A second concrete probe atom. -/
noncomputable def probeAtom2 : Atom :=
  { x := 1, y := 2, z := 3, element := .N, id := "probe1", size := 1,
    color := "#3b82f6" }

/-- The renderer's output length at a concrete two-atom scene is 2. -/
theorem renderList_probe_length :
    (renderList ⟨[probeAtom, probeAtom2], []⟩ 0 0 1 0 0).length = 2 := by
  rw [renderList_length _ _ _ _ _ _ (by simp)]
  simp [projBondsOf]

/-- C5 witness: the depth-sort theorem applied at a concrete two-atom scene,
concrete view state, and the concrete output positions 0 before 1. -/
theorem C5_witness :
    ((renderList ⟨[probeAtom, probeAtom2], []⟩ 0 0 1 0 0).get
      ⟨1, by rw [renderList_probe_length]; exact Nat.one_lt_two⟩).z ≤
    ((renderList ⟨[probeAtom, probeAtom2], []⟩ 0 0 1 0 0).get
      ⟨0, by rw [renderList_probe_length]; exact Nat.two_pos⟩).z :=
  C5_depth_sorted ⟨[probeAtom, probeAtom2], []⟩ 0 0 1 0 0 0 1 Nat.zero_lt_one
    (by rw [renderList_probe_length]; exact Nat.one_lt_two)

/-- C4 counterexample: with viewport size (0,0) and a concrete one-atom scene,
the renderer does not return an empty primitive list. -/
theorem C4_cex_nonempty_at_zero_viewport :
    renderList ⟨[probeAtom], []⟩ 0 0 1 0 0 ≠ [] :=
  renderList_ne_nil _ 0 0 1 0 0 (by simp)

/-- C4 (amended): when the viewport size is (0,0) (not yet laid out), the
renderer does not return an empty list and there is no division by the
viewport: JS falsiness substitutes the fallback dimensions 400×500 for the
screen-center offset, so the output equals the output for a 400×500 viewport,
and it is nonempty whenever the scene has atoms. -/
theorem C4_zero_viewport_uses_fallback (md : MolecularData)
    (rotX rotY zoom : ℝ) (h : md.atoms ≠ []) :
    renderList md rotX rotY zoom 0 0 = renderList md rotX rotY zoom 400 500 ∧
    renderList md rotX rotY zoom 0 0 ≠ [] := by
  constructor
  · have hproj : ∀ px py pz : ℝ,
        project rotX rotY zoom 0 0 px py pz =
          project rotX rotY zoom 400 500 px py pz := by
      intro px py pz
      unfold project
      norm_num
    have hatoms : projAtomsOf md rotX rotY zoom 0 0 =
        projAtomsOf md rotX rotY zoom 400 500 := by
      unfold projAtomsOf
      simp only [hproj]
    unfold renderList
    rw [hatoms]
    unfold projBondsOf
    rw [hatoms]
  · exact renderList_ne_nil md rotX rotY zoom 0 0 h

/-- C4 witness: the amended theorem at a concrete one-atom scene. -/
theorem C4_witness :
    renderList ⟨[probeAtom], []⟩ 0 0 2 0 0 =
      renderList ⟨[probeAtom], []⟩ 0 0 2 400 500 ∧
    renderList ⟨[probeAtom], []⟩ 0 0 2 0 0 ≠ [] :=
  C4_zero_viewport_uses_fallback ⟨[probeAtom], []⟩ 0 0 2 (by simp)

/-! ## Structural lemmas about the generator -/

/-- Two strings with distinct same-length heads stay distinct under append. -/
theorem append_head_ne {p₁ p₂ : String} (x y : String)
    (hlen : p₁.data.length = p₂.data.length) (hne : p₁ ≠ p₂) :
    p₁ ++ x ≠ p₂ ++ y := by
  intro h
  have hd := congrArg String.data h
  rw [String.data_append, String.data_append] at hd
  exact absurd (String.ext (List.append_inj hd hlen).1) hne

/-- The atoms of the step-`i` scene segment, in push order. -/
theorem genStep_atoms (c : ℝ) (v : Option Variant) (len : ℕ)
    (st : MolecularData) (i : ℕ) :
    (genStep c v len st i).atoms =
      st.atoms ++ [phos1 len i, sugar1 len i] ++ (b1StructOf c v len i).atoms
        ++ [phos2 len i, sugar2 len i] ++ (b2StructOf c v len i).atoms := rfl

/-- The bonds of the step-`i` scene segment, in push order. -/
theorem genStep_bonds (c : ℝ) (v : Option Variant) (len : ℕ)
    (st : MolecularData) (i : ℕ) :
    (genStep c v len st i).bonds =
      st.bonds
      ++ [⟨phos1 len i, sugar1 len i, .single, "s1-ps-" ++ Nat.repr i⟩]
      ++ (if 0 < i then
            bbSeg ("s1-s-" ++ Nat.repr (i - 1)) ("s1-bb-" ++ Nat.repr i)
              (phos1 len i) (st.atoms ++ [phos1 len i, sugar1 len i])
          else [])
      ++ (b1StructOf c v len i).bonds
      ++ [⟨sugar1 len i, (b1StructOf c v len i).connector, .single,
            "s1-sb-" ++ Nat.repr i⟩]
      ++ [⟨phos2 len i, sugar2 len i, .single, "s2-ps-" ++ Nat.repr i⟩]
      ++ (if 0 < i then
            bbSeg ("s2-s-" ++ Nat.repr (i - 1)) ("s2-bb-" ++ Nat.repr i)
              (phos2 len i)
              (st.atoms ++ [phos1 len i, sugar1 len i]
                ++ (b1StructOf c v len i).atoms
                ++ [phos2 len i, sugar2 len i])
          else [])
      ++ (b2StructOf c v len i).bonds
      ++ [⟨sugar2 len i, (b2StructOf c v len i).connector, .single,
            "s2-sb-" ++ Nat.repr i⟩]
      ++ (if isIndel v then []
          else hydrogenBonds i (b1StructOf c v len i) (b2StructOf c v len i))
      := rfl

/-- Every atom a base structure builds carries the structure's id stem. -/
theorem struct_atom_id (b : String) (cx cy ang : ℝ) (pre : String) (m : Bool) :
    ∀ a ∈ (generateHighFidelityStructure b cx cy ang pre m).atoms,
      ∃ nm, a.id = pre ++ ("-" ++ nm) := by
  unfold generateHighFidelityStructure
  split_ifs <;> intro a ha <;> fin_cases ha <;>
    exact ⟨_, String.append_assoc _ _ _⟩

/-- Every atom a base structure builds carries the supplied mutation flag. -/
theorem struct_atom_isMutation (b : String) (cx cy ang : ℝ) (pre : String)
    (m : Bool) :
    ∀ a ∈ (generateHighFidelityStructure b cx cy ang pre m).atoms,
      a.isMutation = m := by
  unfold generateHighFidelityStructure
  split_ifs <;> intro a ha <;> fin_cases ha <;> rfl

/-- Every bond a base structure builds is a single (ring) bond. -/
theorem struct_bond_single (b : String) (cx cy ang : ℝ) (pre : String)
    (m : Bool) :
    ∀ bd ∈ (generateHighFidelityStructure b cx cy ang pre m).bonds,
      bd.type = .single := by
  unfold generateHighFidelityStructure
  split_ifs <;> intro bd hbd <;> fin_cases hbd <;> rfl

/-! ## The hydrogen-bond proximity check never fires

The two strands' base anchors sit 140° apart on the helix; the planar
distance between any strand-1 donor/acceptor atom and any strand-2
donor/acceptor atom is bounded below by interval arithmetic over
`cos 140° ∈ [-1, 0]` and `sin 140° ∈ [0, 1]`, and always exceeds the 5.0
threshold. -/

/-- Rotating two points by a common angle preserves their squared planar
distance. -/
theorem rotateZ_dist_sq (x₁ y₁ x₂ y₂ a : ℝ) :
    ((rotateZ x₁ y₁ a).1 - (rotateZ x₂ y₂ a).1) ^ 2 +
      ((rotateZ x₁ y₁ a).2 - (rotateZ x₂ y₂ a).2) ^ 2 =
    (x₁ - x₂) ^ 2 + (y₁ - y₂) ^ 2 := by
  unfold rotateZ
  have h := Real.sin_sq_add_cos_sq (a * Real.pi / 180)
  linear_combination ((x₁ - x₂) ^ 2 + (y₁ - y₂) ^ 2) * h

theorem cos140_nonpos : Real.cos (140 * Real.pi / 180) ≤ 0 :=
  Real.cos_nonpos_of_pi_div_two_le_of_le (by nlinarith [Real.pi_pos])
    (by nlinarith [Real.pi_pos])

theorem sin140_nonneg : 0 ≤ Real.sin (140 * Real.pi / 180) :=
  Real.sin_nonneg_of_nonneg_of_le_pi (by positivity)
    (by nlinarith [Real.pi_pos])

/-- A linear function of `(c, s)` over the box `[-1,0] × [0,1]` is bounded
below by its minimum over the box's corners. -/
theorem box_lb (A P Q c s : ℝ) (hc0 : c ≤ 0) (hc1 : -1 ≤ c) (hs0 : 0 ≤ s)
    (hs1 : s ≤ 1) (h00 : 25 ≤ A) (h01 : 25 ≤ A + Q) (h10 : 25 ≤ A - P)
    (h11 : 25 ≤ A - P + Q) : 25 ≤ A + P * c + Q * s := by
  nlinarith [mul_nonneg (mul_nonneg (by linarith : (0:ℝ) ≤ 1 + c)
      (by linarith : (0:ℝ) ≤ 1 - s)) (by linarith : (0:ℝ) ≤ A - 25),
    mul_nonneg (mul_nonneg (by linarith : (0:ℝ) ≤ 1 + c) hs0)
      (by linarith : (0:ℝ) ≤ A + Q - 25),
    mul_nonneg (mul_nonneg (by linarith : (0:ℝ) ≤ -c)
      (by linarith : (0:ℝ) ≤ 1 - s)) (by linarith : (0:ℝ) ≤ A - P - 25),
    mul_nonneg (mul_nonneg (by linarith : (0:ℝ) ≤ -c) hs0)
      (by linarith : (0:ℝ) ≤ A - P + Q - 25)]

/-- Two points placed at helix angles `α` and `α + 140°` are at squared planar
distance at least 25 whenever the four corner bounds hold. -/
theorem pair_far (u₁ v₁ u₂ v₂ α : ℝ)
    (h00 : 25 ≤ u₁ ^ 2 + v₁ ^ 2 + u₂ ^ 2 + v₂ ^ 2)
    (h01 : 25 ≤ u₁ ^ 2 + v₁ ^ 2 + u₂ ^ 2 + v₂ ^ 2 +
      (2 * (u₁ * v₂) - 2 * (v₁ * u₂)))
    (h10 : 25 ≤ u₁ ^ 2 + v₁ ^ 2 + u₂ ^ 2 + v₂ ^ 2 -
      -(2 * (u₁ * u₂ + v₁ * v₂)))
    (h11 : 25 ≤ u₁ ^ 2 + v₁ ^ 2 + u₂ ^ 2 + v₂ ^ 2 -
      -(2 * (u₁ * u₂ + v₁ * v₂)) + (2 * (u₁ * v₂) - 2 * (v₁ * u₂))) :
    25 ≤ ((rotateZ u₁ v₁ α).1 - (rotateZ u₂ v₂ (α + 140)).1) ^ 2 +
         ((rotateZ u₁ v₁ α).2 - (rotateZ u₂ v₂ (α + 140)).2) ^ 2 := by
  rw [rotateZ_add u₂ v₂ α 140, rotateZ_dist_sq]
  have hpyth := Real.sin_sq_add_cos_sq (140 * Real.pi / 180)
  have hexp : (u₁ - (rotateZ u₂ v₂ 140).1) ^ 2 +
      (v₁ - (rotateZ u₂ v₂ 140).2) ^ 2 =
      (u₁ ^ 2 + v₁ ^ 2 + u₂ ^ 2 + v₂ ^ 2) +
        -(2 * (u₁ * u₂ + v₁ * v₂)) * Real.cos (140 * Real.pi / 180) +
        (2 * (u₁ * v₂) - 2 * (v₁ * u₂)) * Real.sin (140 * Real.pi / 180) := by
    unfold rotateZ
    linear_combination (u₂ ^ 2 + v₂ ^ 2) * hpyth
  rw [hexp]
  exact box_lb _ _ _ _ _ cos140_nonpos (Real.neg_one_le_cos _) sin140_nonneg
    (Real.sin_le_one _) h00 h01 h10 h11

/-- The donor/acceptor atom set of the Adenine layout. -/
theorem struct_hbPts_A (cx cy ang : ℝ) (pre : String) (m : Bool) :
    (generateHighFidelityStructure "A" cx cy ang pre m).hydrogenBondPoints =
      [baseAtom cx cy ang pre m 2.5 (-1.2) .N "N1" (-0.6),
       baseAtom cx cy ang pre m 2.5 1.2 .N "N6" (-0.8)] := rfl

/-- The donor/acceptor atom set of the Guanine layout. -/
theorem struct_hbPts_G (cx cy ang : ℝ) (pre : String) (m : Bool) :
    (generateHighFidelityStructure "G" cx cy ang pre m).hydrogenBondPoints =
      [baseAtom cx cy ang pre m 2.5 1.2 .O "O6" (-0.6),
       baseAtom cx cy ang pre m 2.5 (-1.2) .N "N1" (-0.6),
       baseAtom cx cy ang pre m 1.8 (-3.2) .N "N2" (-0.8)] := rfl

/-- The donor/acceptor atom set of the Cytosine layout. -/
theorem struct_hbPts_C (cx cy ang : ℝ) (pre : String) (m : Bool) :
    (generateHighFidelityStructure "C" cx cy ang pre m).hydrogenBondPoints =
      [baseAtom cx cy ang pre m 2.8 0 .N "N4" (-0.8),
       baseAtom cx cy ang pre m 0.8 1.2 .N "N3" (-0.6),
       baseAtom cx cy ang pre m (-0.8) 2.4 .O "O2" (-0.6)] := rfl

/-- The donor/acceptor atom set of the fallback Thymine layout. -/
theorem struct_hbPts_T (b : String) (hA : b ≠ "A") (hG : b ≠ "G")
    (hC : b ≠ "C") (cx cy ang : ℝ) (pre : String) (m : Bool) :
    (generateHighFidelityStructure b cx cy ang pre m).hydrogenBondPoints =
      [baseAtom cx cy ang pre m 0.8 1.2 .N "N3" (-0.6),
       baseAtom cx cy ang pre m 2.5 0.5 .O "O4" (-0.6)] := by
  unfold generateHighFidelityStructure
  rw [if_neg hA, if_neg hG, if_neg hC]

theorem baseAtom_x (cx cy ang : ℝ) (pre : String) (m : Bool) (lx lz : ℝ)
    (el : Element) (nm : String) (ch : ℝ) :
    (baseAtom cx cy ang pre m lx lz el nm ch).x =
      (rotateZ (cx + lx * 2.5) (lz * 2.5) ang).1 := rfl

theorem baseAtom_z (cx cy ang : ℝ) (pre : String) (m : Bool) (lx lz : ℝ)
    (el : Element) (nm : String) (ch : ℝ) :
    (baseAtom cx cy ang pre m lx lz el nm ch).z =
      (rotateZ (cx + lx * 2.5) (lz * 2.5) ang).2 := rfl

set_option maxHeartbeats 2000000 in
/-- Core distance bound: every strand-1 donor/acceptor atom is at squared
planar distance at least 25 from every strand-2 donor/acceptor atom, for every
base symbol (strand 2 carrying the source's complement) and every step
angle. -/
theorem hb_far (b : String) (cy₁ cy₂ α : ℝ) (pre₁ pre₂ : String)
    (m₁ m₂ : Bool) :
    ∀ h₁ ∈ (generateHighFidelityStructure b (radiusBackbone - 3) cy₁ α
        pre₁ m₁).hydrogenBondPoints,
    ∀ h₂ ∈ (generateHighFidelityStructure (complementChar b)
        (radiusBackbone - 3) cy₂ (α + 140) pre₂ m₂).hydrogenBondPoints,
    25 ≤ (h₁.x - h₂.x) ^ 2 + (h₁.z - h₂.z) ^ 2 := by
  intro h₁ hh₁ h₂ hh₂
  by_cases hA : b = "A"
  · subst hA
    rw [struct_hbPts_A] at hh₁
    rw [show complementChar "A" = "T" from rfl,
      struct_hbPts_T "T" (by decide) (by decide) (by decide)] at hh₂
    simp only [List.mem_cons, List.not_mem_nil, or_false] at hh₁ hh₂
    rcases hh₁ with rfl | rfl <;> rcases hh₂ with rfl | rfl <;>
      simp only [baseAtom_x, baseAtom_z] <;>
      exact pair_far _ _ _ _ _ (by norm_num [radiusBackbone])
        (by norm_num [radiusBackbone]) (by norm_num [radiusBackbone])
        (by norm_num [radiusBackbone])
  · by_cases hT : b = "T"
    · subst hT
      rw [struct_hbPts_T "T" (by decide) (by decide) (by decide)] at hh₁
      rw [show complementChar "T" = "A" from rfl, struct_hbPts_A] at hh₂
      simp only [List.mem_cons, List.not_mem_nil, or_false] at hh₁ hh₂
      rcases hh₁ with rfl | rfl <;> rcases hh₂ with rfl | rfl <;>
        simp only [baseAtom_x, baseAtom_z] <;>
        exact pair_far _ _ _ _ _ (by norm_num [radiusBackbone])
          (by norm_num [radiusBackbone]) (by norm_num [radiusBackbone])
          (by norm_num [radiusBackbone])
    · by_cases hG : b = "G"
      · subst hG
        rw [struct_hbPts_G] at hh₁
        rw [show complementChar "G" = "C" from rfl, struct_hbPts_C] at hh₂
        simp only [List.mem_cons, List.not_mem_nil, or_false] at hh₁ hh₂
        rcases hh₁ with rfl | rfl | rfl <;> rcases hh₂ with rfl | rfl | rfl <;>
          simp only [baseAtom_x, baseAtom_z] <;>
          exact pair_far _ _ _ _ _ (by norm_num [radiusBackbone])
            (by norm_num [radiusBackbone]) (by norm_num [radiusBackbone])
            (by norm_num [radiusBackbone])
      · by_cases hC : b = "C"
        · subst hC
          rw [struct_hbPts_C] at hh₁
          rw [show complementChar "C" = "G" from rfl, struct_hbPts_G] at hh₂
          simp only [List.mem_cons, List.not_mem_nil, or_false] at hh₁ hh₂
          rcases hh₁ with rfl | rfl | rfl <;>
            rcases hh₂ with rfl | rfl | rfl <;>
            simp only [baseAtom_x, baseAtom_z] <;>
            exact pair_far _ _ _ _ _ (by norm_num [radiusBackbone])
              (by norm_num [radiusBackbone]) (by norm_num [radiusBackbone])
              (by norm_num [radiusBackbone])
        · have hcomp : complementChar b = "G" := by
            unfold complementChar
            rw [if_neg hA, if_neg hT, if_neg hG]
          rw [struct_hbPts_T b hA hG hC] at hh₁
          rw [hcomp, struct_hbPts_G] at hh₂
          simp only [List.mem_cons, List.not_mem_nil, or_false] at hh₁ hh₂
          rcases hh₁ with rfl | rfl <;> rcases hh₂ with rfl | rfl | rfl <;>
            simp only [baseAtom_x, baseAtom_z] <;>
            exact pair_far _ _ _ _ _ (by norm_num [radiusBackbone])
              (by norm_num [radiusBackbone]) (by norm_num [radiusBackbone])
              (by norm_num [radiusBackbone])

/-- The per-step hydrogen-bond loop of `generateDNA` emits no bond: every
candidate pair fails the 5.0 proximity check. -/
theorem hydrogenBonds_nil (c : ℝ) (v : Option Variant) (len i : ℕ) :
    hydrogenBonds i (b1StructOf c v len i) (b2StructOf c v len i) = [] := by
  unfold hydrogenBonds
  rw [List.flatMap_eq_nil_iff]
  intro h₁ hh₁
  rw [List.filterMap_eq_nil_iff]
  intro h₂ hh₂
  rw [if_neg]
  have e₂ : b2StructOf c v len i =
      generateHighFidelityStructure (complementChar (stepBase1 c v len i))
        (radiusBackbone - 3) (yOf len i) (strandAngle1 i + 140)
        ("s2-b-" ++ Nat.repr i) false := rfl
  rw [e₂] at hh₂
  have h25 := hb_far (stepBase1 c v len i) (yOf len i) (yOf len i)
    (strandAngle1 i) ("s1-b-" ++ Nat.repr i) ("s2-b-" ++ Nat.repr i)
    (isMutationSite v len i) false h₁ hh₁ h₂ hh₂
  rw [not_lt]
  have h5 : (5.0 : ℝ) ≤
      Real.sqrt ((h₁.x - h₂.x) ^ 2 + (h₁.z - h₂.z) ^ 2) := by
    rw [Real.le_sqrt (by norm_num) (by positivity)]
    nlinarith [h25]
  exact h5

/-! ## Claim C6: Watson-Crick complementarity -/

/-- Modelled from the spec's words: the exact Watson-Crick complement table
(A pairs with T, C pairs with G), undefined elsewhere.  This is the
specification-side pairing rule that the code's `complementChar` is compared
against. -/
def specWC : String → Option String
  | "A" => some "T"
  | "T" => some "A"
  | "C" => some "G"
  | "G" => some "C"
  | _ => none

/-- C6: at every helix step that is not a substituted mutation step (and under
a non-indel variant, as the claim assumes), strand 2's base symbol is exactly
the Watson-Crick complement of strand 1's base symbol. -/
theorem C6_watson_crick_complement (c : ℝ) (v : Option Variant) (len i : ℕ)
    (hmut : offsetOf len i ≠ 0 ∨ v = none) (hindel : isIndel v = false) :
    specWC (stepBase1 c v len i) = some (stepBase2 c v len i) := by
  have hms : isMutationSite v len i = false := by
    unfold isMutationSite
    rcases hmut with h | h
    · simp [h]
    · subst h; simp
  have hbg : stepBase1 c v len i =
      getBaseAtPosition (genomicPos c len i) := by
    unfold stepBase1
    rw [hms]
    simp
  unfold stepBase2
  rw [hbg]
  rcases hashBucket_mem (genomicPos c len i) with h | h | h | h <;> rw [h] <;>
    rfl

/-- C6 witness: the complementarity theorem applied at a concrete
non-mutation step. -/
theorem C6_witness :
    specWC (stepBase1 100 none 4 1) = some (stepBase2 100 none 4 1) :=
  C6_watson_crick_complement 100 none 4 1 (Or.inl (by decide)) (by decide)

/-! ## Field lemmas for the backbone atoms -/

theorem phos1_id (len i : ℕ) : (phos1 len i).id = "s1-p-" ++ Nat.repr i := rfl
theorem sugar1_id (len i : ℕ) : (sugar1 len i).id = "s1-s-" ++ Nat.repr i := rfl
theorem phos2_id (len i : ℕ) : (phos2 len i).id = "s2-p-" ++ Nat.repr i := rfl
theorem sugar2_id (len i : ℕ) : (sugar2 len i).id = "s2-s-" ++ Nat.repr i := rfl
theorem phos1_element (len i : ℕ) : (phos1 len i).element = .P := rfl
theorem sugar1_element (len i : ℕ) : (sugar1 len i).element = .Sugar := rfl
theorem phos2_element (len i : ℕ) : (phos2 len i).element = .P := rfl
theorem sugar2_element (len i : ℕ) : (sugar2 len i).element = .Sugar := rfl
theorem phos1_y (len i : ℕ) : (phos1 len i).y = yOf len i := rfl
theorem phos2_y (len i : ℕ) : (phos2 len i).y = yOf len i := rfl

/-- The per-step vertical position determines the step index. -/
theorem yOf_inj {len i j : ℕ} (h : yOf len i = yOf len j) : i = j := by
  unfold yOf rise at h
  have h₁ : ((offsetOf len i : ℤ) : ℝ) = ((offsetOf len j : ℤ) : ℝ) := by
    nlinarith [h]
  have h₂ : offsetOf len i = offsetOf len j := by exact_mod_cast h₁
  unfold offsetOf startOffset at h₂
  omega

/-! ## `bbSeg` lemmas -/

/-- What a backbone-link segment's bond looks like when it exists. -/
theorem bbSeg_mem {t bid : String} {p : Atom} {atoms : List Atom} {b : Bond}
    (hb : b ∈ bbSeg t bid p atoms) :
    b.type = .backbone ∧ b.endA = p ∧ b.id = bid ∧ b.start.id = t ∧
      b.start ∈ atoms := by
  unfold bbSeg at hb
  rcases hfind : atoms.find? (fun a => a.id == t) with _ | w
  · rw [hfind] at hb
    simp at hb
  · rw [hfind] at hb
    simp only [List.mem_singleton] at hb
    subst hb
    have hpred0 := List.find?_some hfind
    have hpred : (w.id == t) = true := hpred0
    exact ⟨rfl, rfl, rfl, eq_of_beq hpred,
      List.mem_of_find?_eq_some hfind⟩

/-- When some atom carries the looked-up id, the backbone segment is a
one-bond list starting at the first such atom. -/
theorem bbSeg_exists {t : String} (bid : String) (p : Atom)
    {atoms : List Atom} (h : ∃ a ∈ atoms, a.id = t) :
    ∃ w, atoms.find? (fun a => a.id == t) = some w ∧
      bbSeg t bid p atoms = [⟨w, p, .backbone, bid⟩] := by
  have hsome : (atoms.find? (fun a => a.id == t)).isSome := by
    rw [List.find?_isSome]
    obtain ⟨a, ha, he⟩ := h
    exact ⟨a, ha, by simp [he]⟩
  obtain ⟨w, hw⟩ := Option.isSome_iff_exists.mp hsome
  refine ⟨w, hw, ?_⟩
  unfold bbSeg
  rw [hw]

theorem genUpTo_zero (c : ℝ) (v : Option Variant) (len : ℕ) :
    genUpTo c v len 0 = ⟨[], []⟩ := rfl

theorem phos1_isMutation (len i : ℕ) : (phos1 len i).isMutation = false := rfl
theorem sugar1_isMutation (len i : ℕ) : (sugar1 len i).isMutation = false := rfl
theorem phos2_isMutation (len i : ℕ) : (phos2 len i).isMutation = false := rfl
theorem sugar2_isMutation (len i : ℕ) : (sugar2 len i).isMutation = false := rfl

/-! ## Scene invariants, by induction on the generation loop -/

/-- Both sugars of every processed step are in the scene. -/
theorem sugar_mem_genUpTo (c : ℝ) (v : Option Variant) (len : ℕ) :
    ∀ k j, j < k → sugar1 len j ∈ (genUpTo c v len k).atoms ∧
      sugar2 len j ∈ (genUpTo c v len k).atoms := by
  intro k
  induction k with
  | zero => intro j hj; omega
  | succ k ih =>
    intro j hj
    rw [genUpTo_succ, genStep_atoms]
    rcases Nat.lt_succ_iff_lt_or_eq.mp hj with h | rfl
    · obtain ⟨h1, h2⟩ := ih j h
      exact ⟨by simp [List.mem_append, h1], by simp [List.mem_append, h2]⟩
    · exact ⟨by simp [List.mem_append], by simp [List.mem_append]⟩

/-- Every scene atom whose id has a sugar id stem is a sugar atom. -/
theorem sugar_ids_are_sugars (c : ℝ) (v : Option Variant) (len : ℕ) :
    ∀ k, ∀ a ∈ (genUpTo c v len k).atoms, ∀ r : String,
      a.id = "s1-s-" ++ r ∨ a.id = "s2-s-" ++ r → a.element = .Sugar := by
  intro k
  induction k with
  | zero => intro a ha; simp [genUpTo_zero] at ha
  | succ k ih =>
    intro a ha r hid
    rw [genUpTo_succ, genStep_atoms] at ha
    simp only [List.mem_append, List.mem_cons, List.not_mem_nil,
      or_false] at ha
    rcases ha with ((((ha | (rfl | rfl)) | ha) | (rfl | rfl)) | ha)
    · exact ih a ha r hid
    · rw [phos1_id] at hid
      rcases hid with h | h <;>
        exact absurd h (append_head_ne _ _ (by decide) (by decide))
    · rfl
    · obtain ⟨nm, hnm⟩ := struct_atom_id (stepBase1 c v len k)
        (radiusBackbone - 3) (yOf len k) (strandAngle1 k)
        ("s1-b-" ++ Nat.repr k) (isMutationSite v len k) a ha
      rw [hnm, String.append_assoc] at hid
      rcases hid with h | h <;>
        exact absurd h (append_head_ne _ _ (by decide) (by decide))
    · rw [phos2_id] at hid
      rcases hid with h | h <;>
        exact absurd h (append_head_ne _ _ (by decide) (by decide))
    · rfl
    · obtain ⟨nm, hnm⟩ := struct_atom_id (stepBase2 c v len k)
        (radiusBackbone - 3) (yOf len k) (strandAngle2 k)
        ("s2-b-" ++ Nat.repr k) false a ha
      rw [hnm, String.append_assoc] at hid
      rcases hid with h | h <;>
        exact absurd h (append_head_ne _ _ (by decide) (by decide))

/-- Shape of every bond in the scene: everything is a single bond except the
backbone links, which go from the first scene atom holding the previous step's
sugar id to the current step's phosphate.  In particular no bond is a hydrogen
bond (the proximity check never fires). -/
theorem bonds_shape (c : ℝ) (v : Option Variant) (len : ℕ) :
    ∀ k, ∀ b ∈ (genUpTo c v len k).bonds,
      b.type = .single ∨
      (b.type = .backbone ∧ ∃ i', 0 < i' ∧ i' < k ∧
        ((b.endA = phos1 len i' ∧
            b.start.id = "s1-s-" ++ Nat.repr (i' - 1)) ∨
         (b.endA = phos2 len i' ∧
            b.start.id = "s2-s-" ++ Nat.repr (i' - 1)))) := by
  intro k
  induction k with
  | zero => intro b hb; simp [genUpTo_zero] at hb
  | succ k ih =>
    intro b hb
    rw [genUpTo_succ, genStep_bonds, hydrogenBonds_nil, ite_self,
      List.append_nil] at hb
    by_cases hk : 0 < k
    · rw [if_pos hk, if_pos hk] at hb
      simp only [List.mem_append, List.mem_cons, List.not_mem_nil,
        or_false] at hb
      rcases hb with (((((((hb | rfl) | hb) | hb) | rfl) | rfl) | hb) | hb)
        | rfl
      · rcases ih b hb with h | ⟨ht, i', h0, hik, hdis⟩
        · exact Or.inl h
        · exact Or.inr ⟨ht, i', h0, Nat.lt_succ_of_lt hik, hdis⟩
      · exact Or.inl rfl
      · obtain ⟨ht, he, _, hsid, _⟩ := bbSeg_mem hb
        exact Or.inr ⟨ht, k, hk, Nat.lt_succ_self k, Or.inl ⟨he, hsid⟩⟩
      · exact Or.inl (struct_bond_single (stepBase1 c v len k)
          (radiusBackbone - 3) (yOf len k) (strandAngle1 k)
          ("s1-b-" ++ Nat.repr k) (isMutationSite v len k) b hb)
      · exact Or.inl rfl
      · exact Or.inl rfl
      · obtain ⟨ht, he, _, hsid, _⟩ := bbSeg_mem hb
        exact Or.inr ⟨ht, k, hk, Nat.lt_succ_self k, Or.inr ⟨he, hsid⟩⟩
      · exact Or.inl (struct_bond_single (stepBase2 c v len k)
          (radiusBackbone - 3) (yOf len k) (strandAngle2 k)
          ("s2-b-" ++ Nat.repr k) false b hb)
      · exact Or.inl rfl
    · rw [if_neg hk, if_neg hk] at hb
      simp only [List.mem_append, List.mem_cons, List.not_mem_nil,
        List.append_nil, or_false] at hb
      rcases hb with (((((hb | rfl) | hb) | rfl) | rfl) | hb) | rfl
      · rcases ih b hb with h | ⟨ht, i', h0, hik, hdis⟩
        · exact Or.inl h
        · exact Or.inr ⟨ht, i', h0, Nat.lt_succ_of_lt hik, hdis⟩
      · exact Or.inl rfl
      · exact Or.inl (struct_bond_single (stepBase1 c v len k)
          (radiusBackbone - 3) (yOf len k) (strandAngle1 k)
          ("s1-b-" ++ Nat.repr k) (isMutationSite v len k) b hb)
      · exact Or.inl rfl
      · exact Or.inl rfl
      · exact Or.inl (struct_bond_single (stepBase2 c v len k)
          (radiusBackbone - 3) (yOf len k) (strandAngle2 k)
          ("s2-b-" ++ Nat.repr k) false b hb)
      · exact Or.inl rfl

/-- Bonds persist as the loop advances. -/
theorem genUpTo_bonds_mono (c : ℝ) (v : Option Variant) (len : ℕ)
    {k k' : ℕ} (h : k ≤ k') :
    ∀ b ∈ (genUpTo c v len k).bonds, b ∈ (genUpTo c v len k').bonds := by
  induction h with
  | refl => exact fun b hb => hb
  | step h ih =>
    intro b hb
    rw [genUpTo_succ, genStep_bonds]
    simp only [List.mem_append]
    exact Or.inl (Or.inl (Or.inl (Or.inl (Or.inl (Or.inl (Or.inl (Or.inl
      (Or.inl (ih b hb)))))))))

/-- The strand-1 base atoms of every processed step are in the scene. -/
theorem b1_atoms_mem_genUpTo (c : ℝ) (v : Option Variant) (len : ℕ)
    {i : ℕ} : ∀ {k : ℕ}, i < k →
    ∀ a ∈ (b1StructOf c v len i).atoms, a ∈ (genUpTo c v len k).atoms := by
  intro k
  induction k with
  | zero => intro h; omega
  | succ k ih =>
    intro hik a ha
    rw [genUpTo_succ, genStep_atoms]
    simp only [List.mem_append]
    rcases Nat.lt_succ_iff_lt_or_eq.mp hik with h | rfl
    · exact Or.inl (Or.inl (Or.inl (Or.inl (ih h a ha))))
    · exact Or.inl (Or.inl (Or.inr ha))

/-- Every mutation-flagged atom of the scene comes from strand 1's base unit
at the single step of offset 0 (index `len / 2`), and only when a variant was
supplied. -/
theorem mutation_atoms (c : ℝ) (v : Option Variant) (len : ℕ) :
    ∀ k, ∀ a ∈ (genUpTo c v len k).atoms, a.isMutation = true →
      v.isSome = true ∧ a ∈ (b1StructOf c v len (len / 2)).atoms := by
  intro k
  induction k with
  | zero => intro a ha; simp [genUpTo_zero] at ha
  | succ k ih =>
    intro a ha hm
    rw [genUpTo_succ, genStep_atoms] at ha
    simp only [List.mem_append, List.mem_cons, List.not_mem_nil,
      or_false] at ha
    rcases ha with ((((ha | (rfl | rfl)) | ha) | (rfl | rfl)) | ha)
    · exact ih a ha hm
    · rw [phos1_isMutation] at hm; exact absurd hm (by decide)
    · rw [sugar1_isMutation] at hm; exact absurd hm (by decide)
    · have hflag := struct_atom_isMutation (stepBase1 c v len k)
        (radiusBackbone - 3) (yOf len k) (strandAngle1 k)
        ("s1-b-" ++ Nat.repr k) (isMutationSite v len k) a ha
      rw [hflag] at hm
      have hms := hm
      simp only [isMutationSite, Bool.and_eq_true, beq_iff_eq] at hms
      have hk2 : k = len / 2 := by
        have h0 := hms.1
        unfold offsetOf startOffset at h0
        omega
      subst hk2
      exact ⟨hms.2, ha⟩
    · rw [phos2_isMutation] at hm; exact absurd hm (by decide)
    · rw [sugar2_isMutation] at hm; exact absurd hm (by decide)
    · have hflag := struct_atom_isMutation (stepBase2 c v len k)
        (radiusBackbone - 3) (yOf len k) (strandAngle2 k)
        ("s2-b-" ++ Nat.repr k) false a ha
      rw [hflag] at hm
      exact absurd hm (by decide)

/-! ## Claim C1: hydrogen bonds -/

/-- C1: at the spec's own end-to-end scenario — an equal-length substitution
(`ref = "G"`, `alt = "A"`) at position 100 with a 4-step window — the
generated scene contains zero hydrogen bonds, although the claim requires at
least one at every non-mutation step.  (The proximity heuristic never fires:
the planar distance between opposite-strand donor/acceptor atoms always
exceeds the 5.0 threshold.) -/
theorem C1_no_hydrogen_bonds_at_failing_input :
    (generateDNA 100 (some ⟨"G", "A"⟩) 4).bonds.countP
      (fun b => decide (b.type = BondType.hydrogen)) = 0 := by
  rw [List.countP_eq_zero]
  intro b hb
  rcases bonds_shape 100 (some ⟨"G", "A"⟩) 4 4 b hb with h | ⟨h, _⟩ <;>
    simp [h]

/-! ## Claim C2: backbone continuity -/

/-- C2 counterexample: in the concrete scene `generateDNA 100 none 2` there is
no backbone-link bond connecting step 1's sugar to step 0's sugar on either
strand (every backbone bond ends at a phosphate, not a sugar) — refuting the
claim as stated. -/
theorem C2_cex_no_sugar_to_sugar_bond :
    (¬ ∃ b ∈ (generateDNA 100 none 2).bonds, b.type = BondType.backbone ∧
       ((b.start = sugar1 2 1 ∧ b.endA = sugar1 2 0) ∨
        (b.start = sugar1 2 0 ∧ b.endA = sugar1 2 1))) ∧
    (¬ ∃ b ∈ (generateDNA 100 none 2).bonds, b.type = BondType.backbone ∧
       ((b.start = sugar2 2 1 ∧ b.endA = sugar2 2 0) ∨
        (b.start = sugar2 2 0 ∧ b.endA = sugar2 2 1))) := by
  constructor <;>
  · rintro ⟨b, hb, htype, hends⟩
    rcases bonds_shape 100 none 2 2 b hb with h | ⟨_, i', _, _, hdis⟩
    · rw [htype] at h
      exact absurd h (by decide)
    · rcases hdis with ⟨he, _⟩ | ⟨he, _⟩ <;>
        rcases hends with ⟨_, he2⟩ | ⟨_, he2⟩ <;>
        · have hcl := he.symm.trans he2
          have helem := congrArg Atom.element hcl
          simp only [phos1_element, phos2_element, sugar1_element,
            sugar2_element] at helem
          exact absurd helem (by decide)

/-- C2 (amended): for every step `i` in `1..N-1` and each strand, the scene
holds a backbone-link bond whose start is a sugar atom carrying the *previous*
step's sugar id and whose end is the *current* step's **phosphate** atom (the
code links the previous sugar to the current phosphate, not sugar to sugar);
no backbone bond ends at step 0's phosphate on either strand. -/
theorem C2_backbone_links_prev_sugar_to_phosphate
    (c : ℝ) (v : Option Variant) (len i : ℕ) (h1 : 1 ≤ i) (h2 : i < len) :
    (∃ b ∈ (generateDNA c v len).bonds, b.type = BondType.backbone ∧
       b.id = "s1-bb-" ++ Nat.repr i ∧ b.endA = phos1 len i ∧
       b.start.id = "s1-s-" ++ Nat.repr (i - 1) ∧
       b.start.element = Element.Sugar) ∧
    (∃ b ∈ (generateDNA c v len).bonds, b.type = BondType.backbone ∧
       b.id = "s2-bb-" ++ Nat.repr i ∧ b.endA = phos2 len i ∧
       b.start.id = "s2-s-" ++ Nat.repr (i - 1) ∧
       b.start.element = Element.Sugar) ∧
    (∀ b ∈ (generateDNA c v len).bonds, b.type = BondType.backbone →
       b.endA ≠ phos1 len 0 ∧ b.endA ≠ phos2 len 0) := by
  have hi0 : 0 < i := h1
  obtain ⟨hs1mem, hs2mem⟩ := sugar_mem_genUpTo c v len i (i - 1) (by omega)
  refine ⟨?_, ?_, ?_⟩
  · -- strand 1
    have hex1 : ∃ a ∈ (genUpTo c v len i).atoms ++
        [phos1 len i, sugar1 len i], a.id = "s1-s-" ++ Nat.repr (i - 1) :=
      ⟨sugar1 len (i - 1), List.mem_append_left _ hs1mem,
        sugar1_id len (i - 1)⟩
    obtain ⟨w, hw, hseg⟩ :=
      bbSeg_exists ("s1-bb-" ++ Nat.repr i) (phos1 len i) hex1
    have hwid0 := List.find?_some hw
    have hwid : w.id = "s1-s-" ++ Nat.repr (i - 1) := eq_of_beq hwid0
    have hwmem : w ∈ (genUpTo c v len i).atoms ++
        [phos1 len i, sugar1 len i] := List.mem_of_find?_eq_some hw
    have helem : w.element = Element.Sugar := by
      rcases List.mem_append.mp hwmem with hA | hA
      · exact sugar_ids_are_sugars c v len i w hA (Nat.repr (i - 1))
          (Or.inl hwid)
      · simp only [List.mem_cons, List.not_mem_nil, or_false] at hA
        rcases hA with rfl | rfl
        · rw [phos1_id] at hwid
          exact absurd hwid (append_head_ne _ _ (by decide) (by decide))
        · rfl
    have hbmem : (⟨w, phos1 len i, .backbone, "s1-bb-" ++ Nat.repr i⟩ : Bond)
        ∈ (genUpTo c v len (i + 1)).bonds := by
      rw [genUpTo_succ, genStep_bonds]
      simp only [List.mem_append]
      refine Or.inl (Or.inl (Or.inl (Or.inl (Or.inl (Or.inl (Or.inl
        (Or.inr ?_)))))))
      rw [if_pos hi0, hseg]
      exact List.mem_singleton.mpr rfl
    exact ⟨⟨w, phos1 len i, .backbone, "s1-bb-" ++ Nat.repr i⟩,
      genUpTo_bonds_mono c v len (by omega) _ hbmem, rfl, rfl, rfl, hwid,
      helem⟩
  · -- strand 2
    have hex2 : ∃ a ∈ (genUpTo c v len i).atoms ++
        [phos1 len i, sugar1 len i] ++ (b1StructOf c v len i).atoms ++
        [phos2 len i, sugar2 len i],
        a.id = "s2-s-" ++ Nat.repr (i - 1) :=
      ⟨sugar2 len (i - 1),
        List.mem_append_left _ (List.mem_append_left _
          (List.mem_append_left _ hs2mem)), sugar2_id len (i - 1)⟩
    obtain ⟨w, hw, hseg⟩ :=
      bbSeg_exists ("s2-bb-" ++ Nat.repr i) (phos2 len i) hex2
    have hwid0 := List.find?_some hw
    have hwid : w.id = "s2-s-" ++ Nat.repr (i - 1) := eq_of_beq hwid0
    have hwmem := List.mem_of_find?_eq_some hw
    have helem : w.element = Element.Sugar := by
      rcases List.mem_append.mp hwmem with hA | hA
      · rcases List.mem_append.mp hA with hB | hB
        · rcases List.mem_append.mp hB with hC | hC
          · exact sugar_ids_are_sugars c v len i w hC (Nat.repr (i - 1))
              (Or.inr hwid)
          · simp only [List.mem_cons, List.not_mem_nil, or_false] at hC
            rcases hC with rfl | rfl
            · rw [phos1_id] at hwid
              exact absurd hwid (append_head_ne _ _ (by decide) (by decide))
            · rfl
        · obtain ⟨nm, hnm⟩ := struct_atom_id (stepBase1 c v len i)
            (radiusBackbone - 3) (yOf len i) (strandAngle1 i)
            ("s1-b-" ++ Nat.repr i) (isMutationSite v len i) w hB
          rw [hnm, String.append_assoc] at hwid
          exact absurd hwid (append_head_ne _ _ (by decide) (by decide))
      · simp only [List.mem_cons, List.not_mem_nil, or_false] at hA
        rcases hA with rfl | rfl
        · rw [phos2_id] at hwid
          exact absurd hwid (append_head_ne _ _ (by decide) (by decide))
        · rfl
    have hbmem : (⟨w, phos2 len i, .backbone, "s2-bb-" ++ Nat.repr i⟩ : Bond)
        ∈ (genUpTo c v len (i + 1)).bonds := by
      rw [genUpTo_succ, genStep_bonds]
      simp only [List.mem_append]
      refine Or.inl (Or.inl (Or.inl (Or.inr ?_)))
      rw [if_pos hi0, hseg]
      exact List.mem_singleton.mpr rfl
    exact ⟨⟨w, phos2 len i, .backbone, "s2-bb-" ++ Nat.repr i⟩,
      genUpTo_bonds_mono c v len (by omega) _ hbmem, rfl, rfl, rfl, hwid,
      helem⟩
  · intro b hb htype
    rcases bonds_shape c v len len b hb with h | ⟨_, i', hi'0, _, hdis⟩
    · rw [htype] at h
      exact absurd h (by decide)
    · constructor <;> intro he0 <;> rcases hdis with ⟨he, _⟩ | ⟨he, _⟩ <;>
        · have hcl := he.symm.trans he0
          have hy := congrArg Atom.y hcl
          have hy' : yOf len i' = yOf len 0 := hy
          exact absurd (yOf_inj hy') (by omega)

/-- C2 witness: the amended backbone theorem at the concrete input
`generateDNA 100 none 2`, step 1. -/
theorem C2_witness :
    (∃ b ∈ (generateDNA 100 none 2).bonds, b.type = BondType.backbone ∧
       b.id = "s1-bb-" ++ Nat.repr 1 ∧ b.endA = phos1 2 1 ∧
       b.start.id = "s1-s-" ++ Nat.repr (1 - 1) ∧
       b.start.element = Element.Sugar) ∧
    (∃ b ∈ (generateDNA 100 none 2).bonds, b.type = BondType.backbone ∧
       b.id = "s2-bb-" ++ Nat.repr 1 ∧ b.endA = phos2 2 1 ∧
       b.start.id = "s2-s-" ++ Nat.repr (1 - 1) ∧
       b.start.element = Element.Sugar) ∧
    (∀ b ∈ (generateDNA 100 none 2).bonds, b.type = BondType.backbone →
       b.endA ≠ phos1 2 0 ∧ b.endA ≠ phos2 2 0) :=
  C2_backbone_links_prev_sugar_to_phosphate 100 none 2 1 le_rfl one_lt_two

/-! ## Claim C3: the mutation flag -/

/-- C3 (amended): every atom of the scene whose mutation-site flag is set
belongs to strand 1's base unit at the single mutation step (offset 0, index
`len / 2`) — the code flags that whole base's atoms, not a single atom — and
a flagged atom can exist only when a variant was supplied (so no variant
means zero flagged atoms). -/
theorem C3_mutation_atoms_single_base (c : ℝ) (v : Option Variant)
    (len : ℕ) (a : Atom) (ha : a ∈ (generateDNA c v len).atoms)
    (hm : a.isMutation = true) :
    v.isSome = true ∧ a ∈ (b1StructOf c v len (len / 2)).atoms :=
  mutation_atoms c v len len a ha hm

theorem baseAtom_isMutation (cx cy ang : ℝ) (pre : String) (m : Bool)
    (lx lz : ℝ) (el : Element) (nm : String) (ch : ℝ) :
    (baseAtom cx cy ang pre m lx lz el nm ch).isMutation = m := rfl

/-- The Adenine layout's atoms, explicitly. -/
theorem struct_atoms_A (cx cy ang : ℝ) (pre : String) (m : Bool) :
    (generateHighFidelityStructure "A" cx cy ang pre m).atoms =
      [baseAtom cx cy ang pre m (-1.5) 0 .N "N9" (-0.2),
       baseAtom cx cy ang pre m (-1.0) 1.2 .C "C8" 0.1,
       baseAtom cx cy ang pre m 0.2 1.2 .N "N7" (-0.5),
       baseAtom cx cy ang pre m 0.5 0 .C "C5" 0.1,
       baseAtom cx cy ang pre m 1.8 0 .C "C6" 0.4,
       baseAtom cx cy ang pre m 2.5 1.2 .N "N6" (-0.8),
       baseAtom cx cy ang pre m 2.5 (-1.2) .N "N1" (-0.6),
       baseAtom cx cy ang pre m 1.5 (-2.2) .C "C2" 0.2,
       baseAtom cx cy ang pre m 0.2 (-2.2) .N "N3" (-0.6),
       baseAtom cx cy ang pre m (-0.5) (-1.0) .C "C4" 0.1] := rfl

/-- At the concrete failing input, the mutation step's strand-1 base is the
Adenine layout with the mutation flag set. -/
theorem b1Struct_at_mut_step :
    b1StructOf 100 (some ⟨"G", "A"⟩) 4 2 =
      generateHighFidelityStructure "A" (radiusBackbone - 3) (yOf 4 2)
        (strandAngle1 2) ("s1-b-" ++ Nat.repr 2) true := by
  have hsb : stepBase1 100 (some ⟨"G", "A"⟩) 4 2 = "A" := by
    unfold stepBase1
    rw [if_pos (by decide)]
    rfl
  have hms : isMutationSite (some ⟨"G", "A"⟩) 4 2 = true := by decide
  unfold b1StructOf
  rw [hsb, hms]

/-- Flagged-atom count contributed by one loop step. -/
theorem countP_mut_genStep (c : ℝ) (v : Option Variant) (len : ℕ)
    (st : MolecularData) (i : ℕ) :
    (genStep c v len st i).atoms.countP (fun a => a.isMutation) =
      st.atoms.countP (fun a => a.isMutation) +
      (b1StructOf c v len i).atoms.countP (fun a => a.isMutation) +
      (b2StructOf c v len i).atoms.countP (fun a => a.isMutation) := by
  rw [genStep_atoms]
  simp [List.countP_append, List.countP_cons, phos1_isMutation,
    sugar1_isMutation, phos2_isMutation, sugar2_isMutation]
  omega

/-- An unflagged base structure contributes no flagged atoms. -/
theorem countP_mut_struct_false (b : String) (cx cy ang : ℝ) (pre : String) :
    (generateHighFidelityStructure b cx cy ang pre false).atoms.countP
      (fun a => a.isMutation) = 0 := by
  rw [List.countP_eq_zero]
  intro a ha
  have := struct_atom_isMutation b cx cy ang pre false a ha
  simp [this]

/-- C3 counterexample: at the concrete input
`generateDNA 100 (some ⟨"G","A"⟩) 4`, at least two atoms (indeed the whole
substituted adenine: ten atoms) carry the mutation-site flag — refuting
"at most one Atom in the whole scene". -/
theorem C3_cex_whole_base_flagged :
    2 ≤ (generateDNA 100 (some ⟨"G", "A"⟩) 4).atoms.countP
      (fun a => a.isMutation) := by
  have h10 : (b1StructOf 100 (some ⟨"G", "A"⟩) 4 2).atoms.countP
      (fun a => a.isMutation) = 10 := by
    rw [b1Struct_at_mut_step, struct_atoms_A]
    simp [List.countP_cons, baseAtom_isMutation]
  have e4 : (genUpTo 100 (some ⟨"G", "A"⟩) 4 4).atoms.countP
      (fun a => a.isMutation) =
      (genUpTo 100 (some ⟨"G", "A"⟩) 4 3).atoms.countP
        (fun a => a.isMutation) +
      (b1StructOf 100 (some ⟨"G", "A"⟩) 4 3).atoms.countP
        (fun a => a.isMutation) +
      (b2StructOf 100 (some ⟨"G", "A"⟩) 4 3).atoms.countP
        (fun a => a.isMutation) := by
    rw [show (4 : ℕ) = 3 + 1 from rfl, genUpTo_succ, countP_mut_genStep]
  have e3 : (genUpTo 100 (some ⟨"G", "A"⟩) 4 3).atoms.countP
      (fun a => a.isMutation) =
      (genUpTo 100 (some ⟨"G", "A"⟩) 4 2).atoms.countP
        (fun a => a.isMutation) +
      (b1StructOf 100 (some ⟨"G", "A"⟩) 4 2).atoms.countP
        (fun a => a.isMutation) +
      (b2StructOf 100 (some ⟨"G", "A"⟩) 4 2).atoms.countP
        (fun a => a.isMutation) := by
    rw [show (3 : ℕ) = 2 + 1 from rfl, genUpTo_succ, countP_mut_genStep]
  show 2 ≤ (genUpTo 100 (some ⟨"G", "A"⟩) 4 4).atoms.countP
    (fun a => a.isMutation)
  omega

/-- C3 witness: the amended theorem applied to a concrete flagged atom (the
substituted adenine's N9) at the concrete failing input. -/
theorem C3_witness :
    (Option.some (Variant.mk "G" "A")).isSome = true ∧
      baseAtom (radiusBackbone - 3) (yOf 4 2) (strandAngle1 2)
        ("s1-b-" ++ Nat.repr 2) true (-1.5) 0 Element.N "N9" (-0.2) ∈
      (b1StructOf 100 (some ⟨"G", "A"⟩) 4 (4 / 2)).atoms := by
  have hmem0 : baseAtom (radiusBackbone - 3) (yOf 4 2) (strandAngle1 2)
      ("s1-b-" ++ Nat.repr 2) true (-1.5) 0 Element.N "N9" (-0.2) ∈
      (b1StructOf 100 (some ⟨"G", "A"⟩) 4 2).atoms := by
    rw [b1Struct_at_mut_step, struct_atoms_A]
    exact List.mem_cons_self _ _
  have hmem : baseAtom (radiusBackbone - 3) (yOf 4 2) (strandAngle1 2)
      ("s1-b-" ++ Nat.repr 2) true (-1.5) 0 Element.N "N9" (-0.2) ∈
      (generateDNA 100 (some ⟨"G", "A"⟩) 4).atoms :=
    b1_atoms_mem_genUpTo 100 (some ⟨"G", "A"⟩) 4 (by norm_num) _ hmem0
  exact C3_mutation_atoms_single_base 100 (some ⟨"G", "A"⟩) 4 _ hmem rfl

end DeDNA
